import Mathlib

/-!
Shallow embedding of the bookstore inventory web application (`app.py`).

The application is a set of Flask route handlers over a MongoDB collection
`db.books`.  We model:

* the collection as a list of `Book` records together with a fresh-id
  counter (MongoDB assigns an opaque unique `_id` at insertion; we model
  ids as natural numbers handed out by the counter);
* form/query parameters as `Option String` (Flask's `request.form.get` /
  `request.args.get` return the string when the field is present and
  `None` otherwise);
* Python's `float()` / `int()` conversions on decimal literals, and
  `datetime.strptime(s, "%Y-%m-%d")`;
* each route handler as a pure function from the store and the request
  data to an outcome (`redirect`, client error with the handler's message,
  or an uncaught-exception server fault) and the resulting store.

Prices are modelled by `PyFloat`: a finite value held as the exact
rational value of the parsed literal, one of the two infinities, or NaN.
The handlers' `price <= 0` checks follow IEEE comparison (false on NaN),
and the store's `$lte` search condition follows MongoDB's total order on
doubles (NaN below every number).
-/

namespace Bookstore

/-- Value of a run of decimal digits (0 for the empty run), as used by
the digit runs accepted by Python's `float`/`int` conversions. -/
def decVal (l : List Char) : Nat :=
  l.foldl (fun a c => 10 * a + (c.toNat - '0'.toNat)) 0

/-- Split a character list at every occurrence of the separator
(mirroring `str.split(sep)`: n separators give n+1 pieces). -/
def splitOnChar (sep : Char) : List Char → List (List Char)
  | [] => [[]]
  | c :: cs =>
      if c = sep then [] :: splitOnChar sep cs
      else
        match splitOnChar sep cs with
        | [] => [[c]]
        | h :: t => (c :: h) :: t

/-- Split off an optional leading sign, returning the sign as an integer
together with the remaining characters. -/
def pySign : List Char → Int × List Char
  | '-' :: t => (-1, t)
  | '+' :: t => (1, t)
  | t => (1, t)

/-- ASCII whitespace stripped by Python's `float()`/`int()` conversions. -/
def isPySpace (c : Char) : Bool :=
  c = ' ' || c = '\t' || c = '\n' || c = '\r' || c = '\x0b' || c = '\x0c'

/-- Strip leading and trailing whitespace, as `float()`/`int()` do. -/
def stripPySpaces (l : List Char) : List Char :=
  ((l.dropWhile isPySpace).reverse.dropWhile isPySpace).reverse

/-- Scan a digit run in which every underscore sits directly between two
digits (PEP 515), assuming the first character has been checked. -/
def digitsUndCore : List Char → Bool
  | [] => true
  | c :: rest =>
      if c.isDigit then digitsUndCore rest
      else if c = '_' then
        match rest with
        | d :: _ => d.isDigit && digitsUndCore rest
        | [] => false
      else false

/-- A non-empty run of decimal digits with PEP 515 underscores: starts
with a digit and every underscore is directly between two digits. -/
def digitsUndRun (l : List Char) : Bool :=
  match l with
  | [] => false
  | c :: _ => c.isDigit && digitsUndCore l

/-- An empty run or a valid underscore-digit run (either side of the
decimal point may be empty as long as one side has a digit). -/
def runOrEmpty (l : List Char) : Bool :=
  l.isEmpty || digitsUndRun l

/-- Remove the PEP 515 underscores before reading the digits. -/
def stripUnd (l : List Char) : List Char :=
  l.filter (fun c => c ≠ '_')

/-- The value of a Python float: a finite value (held exactly as the
rational value of the literal), one of the two infinities, or NaN. -/
inductive PyFloat where
  | finite (q : Rat)
  | inf
  | ninf
  | nan
deriving Repr, DecidableEq

/-- IEEE 754 `<=`, as Python evaluates `price <= 0`: every comparison
with NaN is false; the infinities compare as extremes. -/
def PyFloat.le : PyFloat → PyFloat → Bool
  | .nan, _ => false
  | _, .nan => false
  | .ninf, _ => true
  | _, .ninf => false
  | _, .inf => true
  | .inf, _ => false
  | .finite a, .finite b => a ≤ b

/-- IEEE 754 `0 < x`: true for positive finite values and +infinity,
false for zero, negative values, -infinity and NaN. -/
def PyFloat.pos : PyFloat → Bool
  | .finite q => 0 < q
  | .inf => true
  | .ninf => false
  | .nan => false

/-- MongoDB's comparison on doubles, used by `$lte` range conditions: a
total order in which NaN compares equal to NaN and below every number
(the server's `compareDoubles` returns -1 when only the left side is
NaN). -/
def mongoLe : PyFloat → PyFloat → Bool
  | .nan, _ => true
  | _, .nan => false
  | .ninf, _ => true
  | _, .ninf => false
  | _, .inf => true
  | .inf, _ => false
  | .finite a, .finite b => a ≤ b

/-- The exact rational value of the decimal literal `sg * ip.fp * 10^e`. -/
def decimalVal (sg : Int) (ip fp : List Char) (e : Int) : Rat :=
  let ipd := stripUnd ip
  let fpd := stripUnd fp
  let m : Int := sg * ((decVal ipd : Int) * (10 : Int) ^ fpd.length + (decVal fpd : Int))
  if 0 ≤ e then mkRat (m * (10 : Int) ^ e.toNat) ((10 : Nat) ^ fpd.length)
  else mkRat m ((10 : Nat) ^ fpd.length * (10 : Nat) ^ (-e).toNat)

/-- The mantissa of a float literal: digits with at most one decimal
point, at least one digit overall, underscores per PEP 515. -/
def parseMantissa (mant : List Char) : Option (List Char × List Char) :=
  match splitOnChar '.' mant with
  | [ip] => if digitsUndRun ip then some (ip, []) else none
  | [ip, fp] =>
      if (runOrEmpty ip ∧ runOrEmpty fp) ∧
         (stripUnd ip).length + (stripUnd fp).length > 0 then
        some (ip, fp)
      else none
  | _ => none

/-- The exponent of a float literal: an optional sign and a non-empty
digit run. -/
def parseExp (ex : List Char) : Option Int :=
  let (esg, ed) := pySign ex
  if digitsUndRun ed then some (esg * (decVal (stripUnd ed) : Int)) else none

/-- Model of Python `float(s)`: strips ASCII whitespace, takes an
optional sign, and accepts (case-insensitively) `inf`/`infinity`, `nan`,
or a decimal literal with optional fraction and exponent and PEP 515
underscores.  Returns `none` where Python raises `ValueError`.  Finite
values are held as the exact rational value of the literal rather than
the nearest IEEE double, so the model ignores rounding and
overflow-to-infinity of astronomically large literals; the comparisons
the application makes (against 0 and between stored prices and bounds)
agree with double arithmetic on the values exercised here.  Unicode
(non-ASCII) digits and spaces are not modelled. -/
def pyFloat (s : String) : Option PyFloat :=
  let cs := stripPySpaces s.data
  let (sg, body) := pySign cs
  let lower := body.map Char.toLower
  if lower = ['i', 'n', 'f'] ∨ lower = ['i', 'n', 'f', 'i', 'n', 'i', 't', 'y'] then
    some (if sg = -1 then PyFloat.ninf else PyFloat.inf)
  else if lower = ['n', 'a', 'n'] then
    some PyFloat.nan
  else
    match splitOnChar 'e' lower with
    | [mant] =>
        match parseMantissa mant with
        | some (ip, fp) => some (PyFloat.finite (decimalVal sg ip fp 0))
        | none => none
    | [mant, ex] =>
        match parseMantissa mant, parseExp ex with
        | some (ip, fp), some e => some (PyFloat.finite (decimalVal sg ip fp e))
        | _, _ => none
    | _ => none

/-- Model of Python `int(s)` in base 10: strips ASCII whitespace, takes
an optional sign, then a non-empty digit run with PEP 515 underscores.
Returns `none` where Python raises `ValueError` (empty string, stray
characters, a decimal point or exponent).  Unicode digits are not
modelled. -/
def pyInt (s : String) : Option Int :=
  let cs := stripPySpaces s.data
  let (sg, body) := pySign cs
  if digitsUndRun body then some (sg * (decVal (stripUnd body) : Int))
  else none

/-- A `datetime.datetime` value: calendar date plus time of day.
`datetime.strptime(s, "%Y-%m-%d")` produces such a value with all time
fields zero, and `datetime.utcnow()` produces the full current timestamp. -/
structure DateTime where
  year : Nat
  month : Nat
  day : Nat
  hour : Nat
  minute : Nat
  second : Nat
  microsecond : Nat
deriving Repr, DecidableEq

/-- Gregorian leap-year rule, as used by Python's date validation. -/
def isLeap (y : Nat) : Bool :=
  (y % 4 == 0 && y % 100 != 0) || y % 400 == 0

/-- Number of days in a month of a given year. -/
def daysInMonth (y m : Nat) : Nat :=
  if m = 2 then (if isLeap y then 29 else 28)
  else if m = 4 ∨ m = 6 ∨ m = 9 ∨ m = 11 then 30
  else 31

/-- Model of `datetime.datetime.strptime(s, "%Y-%m-%d")`: three runs of
digits separated by `-`, with the month and day in calendar range.  On
success the resulting datetime has hour, minute, second and microsecond
all zero (midnight); otherwise Python raises `ValueError`. -/
def strptimeYMD (s : String) : Option DateTime :=
  match splitOnChar '-' s.data with
  | [ys, ms, ds] =>
      if ys.length > 0 ∧ ys.length ≤ 4 ∧ ys.all Char.isDigit ∧
         ms.length > 0 ∧ ms.all Char.isDigit ∧
         ds.length > 0 ∧ ds.all Char.isDigit then
        let y := decVal ys
        let m := decVal ms
        let d := decVal ds
        if 1 ≤ m ∧ m ≤ 12 ∧ 1 ≤ d ∧ d ≤ daysInMonth y m then
          some ⟨y, m, d, 0, 0, 0, 0⟩
        else none
      else none
  | _ => none

/-- A document of the `books` collection.  `id` models the MongoDB `_id`
assigned at insertion. -/
structure Book where
  id : Nat
  title : String
  author : String
  genre : String
  price : PyFloat
  quantity : Int
  date_added : DateTime
deriving Repr, DecidableEq

/-- The `books` collection together with the id counter used to model
MongoDB's assignment of fresh `_id`s on insert. -/
structure Store where
  books : List Book
  nextId : Nat
deriving Repr, DecidableEq

/-- Python truthiness of an optional form/query string: `None` and the
empty string are falsy, any other string is truthy (`if title:` etc.). -/
def truthy : Option String → Bool
  | none => false
  | some s => s ≠ ""

/-- Outcome of a route handler: a Flask redirect to a path, a `(msg, 400)`
client-error return, or an uncaught Python exception (which Flask surfaces
as a 500 server fault). -/
inductive HandlerResult where
  | redirect (target : String)
  | clientError (msg : String)
  | serverFault (msg : String)
deriving Repr, DecidableEq

/-- The form body of a `POST /add` request. -/
structure AddForm where
  title : Option String
  author : Option String
  genre : Option String
  price : Option String
  quantity : Option String
deriving Repr, DecidableEq

/-- The query string of a `GET /search` request. -/
structure SearchArgs where
  title : Option String
  author : Option String
  genre : Option String
  date_added : Option String
  price : Option String
deriving Repr, DecidableEq

/-- Case-insensitive match of one pattern character against one subject
character: `.` matches anything, any other character matches itself up to
letter case. -/
def charMatch (p c : Char) : Bool :=
  p = '.' || p.toLower = c.toLower

/-- Does the pattern match a prefix of the subject (pointwise, with
`charMatch` at each position)? -/
def patPrefixMatch : List Char → List Char → Bool
  | [], _ => true
  | _ :: _, [] => false
  | p :: ps, c :: cs => charMatch p c && patPrefixMatch ps cs

/-- Does the pattern match anywhere in the subject (at some starting
position)? -/
def patSubMatch (pat : List Char) : List Char → Bool
  | [] => patPrefixMatch pat []
  | c :: cs => patPrefixMatch pat (c :: cs) || patSubMatch pat cs

/-- Model of the MongoDB condition `{'$regex': pat, '$options': 'i'}`:
unanchored, case-insensitive regular-expression match.  The model is
faithful to PCRE exactly on patterns built from literal characters and
the `.` wildcard; it does not implement quantifiers, classes, anchors,
alternation or escapes.  Every theorem below therefore constrains the
patterns it covers to this fragment: the amended substring theorem
hypothesises text free of all PCRE metacharacters (see `isRegexMeta`),
and the counterexample uses only literals and `.`. -/
def regexMatchI (pat s : String) : Bool :=
  patSubMatch pat.data s.data

/-- Is `c` a character that PCRE (MongoDB `$regex`) treats specially? -/
def isRegexMeta (c : Char) : Bool :=
  c = '.' || c = '^' || c = '$' || c = '*' || c = '+' || c = '?' ||
  c = '(' || c = ')' || c = '[' || c = ']' || c = '\x7b' || c = '\x7d' ||
  c = '\\' || c = '|'

/-- The MongoDB filter document built by the `search` handler: each field
is a condition the handler may or may not have added to the `query` dict. -/
structure Query where
  title : Option String
  author : Option String
  genre : Option String
  date_added : Option DateTime
  price : Option PyFloat
deriving Repr, DecidableEq

/-- The empty filter `{}` (the handler checks `if query` before querying). -/
def Query.isEmpty (q : Query) : Bool :=
  q.title = none && q.author = none && q.genre = none &&
  q.date_added = none && q.price = none

/-- An optional text condition of the filter: absent conditions hold
vacuously, present ones are case-insensitive regex matches. -/
def optRegexCond : Option String → String → Bool
  | none, _ => true
  | some p, s => regexMatchI p s

/-- The optional `date_added` condition: exact equality match. -/
def optDateCond : Option DateTime → DateTime → Bool
  | none, _ => true
  | some d, t => t = d

/-- The optional price condition: the `$lte` upper bound in MongoDB's
double comparison. -/
def optPriceCond : Option PyFloat → PyFloat → Bool
  | none, _ => true
  | some v, p => mongoLe p v

/-- Does a book satisfy every condition of the filter (MongoDB combines
the fields of a filter document by logical AND)? -/
def Query.matches (q : Query) (b : Book) : Bool :=
  optRegexCond q.title b.title && optRegexCond q.author b.author &&
  optRegexCond q.genre b.genre && optDateCond q.date_added b.date_added &&
  optPriceCond q.price b.price

/-- Result of `GET /search`: the rendered list of matching books, or a
client error for a malformed `date_added`/`price` parameter. -/
inductive SearchResult where
  | ok (books : List Book)
  | clientError (msg : String)
deriving Repr, DecidableEq

/-- Final step of the `search` handler: `results = db.books.find(query)
if query else []`. -/
def runQuery (st : Store) (q : Query) : SearchResult :=
  if q.isEmpty then .ok [] else .ok (st.books.filter q.matches)

/-- The truthiness guard the `search` handler applies to each text
parameter before adding its condition to the query dict. -/
def guardParam : Option String → Option String
  | some t => if t ≠ "" then some t else none
  | none => none

/-- Continuation of the `search` handler after the `date_added` parameter
has been handled: processes the `price` parameter (400 on an unparsable
truthy value, `$lte` condition otherwise) and runs the query. -/
def searchAfterDate (st : Store) (a : SearchArgs)
    (qTitle qAuthor qGenre : Option String) (qDate : Option DateTime) :
    SearchResult :=
  match a.price with
  | some ps =>
      if ps ≠ "" then
        match pyFloat ps with
        | none => .clientError "Invalid price format. Please enter a valid number."
        | some v => runQuery st ⟨qTitle, qAuthor, qGenre, qDate, some v⟩
      else runQuery st ⟨qTitle, qAuthor, qGenre, qDate, none⟩
  | none => runQuery st ⟨qTitle, qAuthor, qGenre, qDate, none⟩

/-- The `GET /search` handler.  Adds a case-insensitive `$regex` condition
for each truthy `title`/`author`/`genre` parameter, parses a truthy
`date_added` with `strptime "%Y-%m-%d"` (returning 400 on failure) as an
exact-equality condition, parses a truthy `price` with `float` (returning
400 on failure) as a `$lte` condition, then evaluates
`db.books.find(query) if query else []`. -/
def search (st : Store) (a : SearchArgs) : SearchResult :=
  let qTitle := guardParam a.title
  let qAuthor := guardParam a.author
  let qGenre := guardParam a.genre
  match a.date_added with
  | some ds =>
      if ds ≠ "" then
        match strptimeYMD ds with
        | none => .clientError "Invalid date format. Please use YYYY-MM-DD."
        | some d => searchAfterDate st a qTitle qAuthor qGenre (some d)
      else searchAfterDate st a qTitle qAuthor qGenre none
  | none => searchAfterDate st a qTitle qAuthor qGenre none

/-- The `POST /add` handler.  Requires all five form fields truthy
(`"All fields are required."` otherwise), parses price as `float` and
quantity as `int` inside one `try` (`"Price and quantity must be
numbers."` on `ValueError`), rejects non-positive values, then inserts
the new document with `date_added` stamped to `now`
(`datetime.utcnow()`) and redirects to the home page. -/
def add (st : Store) (f : AddForm) (now : DateTime) : HandlerResult × Store :=
  if !truthy f.title || !truthy f.author || !truthy f.genre ||
     !truthy f.price || !truthy f.quantity then
    (.clientError "All fields are required.", st)
  else
    match pyFloat (f.price.getD ""), pyInt (f.quantity.getD "") with
    | some p, some q =>
        if PyFloat.le p (PyFloat.finite 0) = true ∨ q ≤ 0 then
          (.clientError "Price and quantity must be positive values.", st)
        else
          let nbook : Book :=
            { id := st.nextId
              title := f.title.getD ""
              author := f.author.getD ""
              genre := f.genre.getD ""
              price := p
              quantity := q
              date_added := now }
          (.redirect "/home", ⟨st.books ++ [nbook], st.nextId + 1⟩)
    | _, _ => (.clientError "Price and quantity must be numbers.", st)

/-- The `GET /show_inventory` handler.  The code runs
`books = db.books.find({}, {"title": 1, "quantity": 1})` and then
`list = list(books)`.  Because `list` is assigned in the function body it
is a local variable throughout the body, so the call `list(books)` reads
the local `list` before its assignment and raises `UnboundLocalError`;
the handler therefore always ends in an uncaught exception and never
renders. -/
def show_inventory (st : Store) : Except String (List Book) :=
  let _books := st.books
  Except.error "UnboundLocalError: local variable 'list' referenced before assignment"

/-- The `GET /book_detail/<book_id>` handler:
`db.books.find_one({"_id": ObjectId(book_id)})`. -/
def book_detail (st : Store) (id : Nat) : Option Book :=
  st.books.find? (fun b => b.id == id)

/-- Model of `db.books.update_one({"_id": id}, {"$set": ...})`: apply `f`
to the first document whose `_id` matches (a no-op when none matches). -/
def updateFirst (f : Book → Book) (id : Nat) : List Book → List Book
  | [] => []
  | b :: bs => if b.id = id then f b :: bs else b :: updateFirst f id bs

/-- The `POST /edit_price/<book_id>` handler.  `request.form.get('price')`
is `None` when the field is absent, and `float(None)` raises `TypeError`,
which the `except ValueError` clause does not catch: a missing field is an
uncaught server fault.  A present field is parsed with `float` (400 on
`ValueError`), rejected if non-positive, and otherwise `$set` on the
matching document followed by a redirect to the detail view. -/
def edit_price (st : Store) (id : Nat) (priceField : Option String) :
    HandlerResult × Store :=
  match priceField with
  | none =>
      (.serverFault "TypeError: float() argument must be a string or a real number, not NoneType", st)
  | some s =>
      match pyFloat s with
      | none => (.clientError "Price must be numbers.", st)
      | some p =>
          if PyFloat.le p (PyFloat.finite 0) = true then
            (.clientError "Price must be a positive value.", st)
          else
            (.redirect ("/book_detail/" ++ toString id),
             ⟨updateFirst (fun b => { b with price := p }) id st.books, st.nextId⟩)

/-- The `POST /edit_quantity/<book_id>` handler, analogous to
`edit_price` with `int` in place of `float` (`int(None)` likewise raises
an uncaught `TypeError`). -/
def edit_quantity (st : Store) (id : Nat) (quantityField : Option String) :
    HandlerResult × Store :=
  match quantityField with
  | none =>
      (.serverFault "TypeError: int() argument must be a string, a bytes-like object or a real number, not NoneType", st)
  | some s =>
      match pyInt s with
      | none => (.clientError "Quantity must be numbers.", st)
      | some q =>
          if q ≤ 0 then (.clientError "Quantity must be a positive value.", st)
          else
            (.redirect ("/book_detail/" ++ toString id),
             ⟨updateFirst (fun b => { b with quantity := q }) id st.books, st.nextId⟩)

/-- The `POST /edit_title/<book_id>` handler: `if not title` rejects a
missing or empty title with 400, otherwise `$set`s the title. -/
def edit_title (st : Store) (id : Nat) (titleField : Option String) :
    HandlerResult × Store :=
  if !truthy titleField then (.clientError "Title cannot be empty.", st)
  else
    (.redirect ("/book_detail/" ++ toString id),
     ⟨updateFirst (fun b => { b with title := titleField.getD "" }) id st.books, st.nextId⟩)

/-- The `edit_author` handler (defined in the source without a route
decorator), same shape as `edit_title`. -/
def edit_author (st : Store) (id : Nat) (authorField : Option String) :
    HandlerResult × Store :=
  if !truthy authorField then (.clientError "Author cannot be empty.", st)
  else
    (.redirect ("/book_detail/" ++ toString id),
     ⟨updateFirst (fun b => { b with author := authorField.getD "" }) id st.books, st.nextId⟩)

/-- The `POST /edit_genre/<book_id>` handler, same shape as `edit_title`. -/
def edit_genre (st : Store) (id : Nat) (genreField : Option String) :
    HandlerResult × Store :=
  if !truthy genreField then (.clientError "Genre cannot be empty.", st)
  else
    (.redirect ("/book_detail/" ++ toString id),
     ⟨updateFirst (fun b => { b with genre := genreField.getD "" }) id st.books, st.nextId⟩)

/-- The `POST /delete/<book_id>` handler:
`db.books.delete_one({"_id": ObjectId(book_id)})` then redirect home. -/
def delete (st : Store) (id : Nat) : HandlerResult × Store :=
  (.redirect "/home", ⟨st.books.eraseP (fun b => b.id == id), st.nextId⟩)

/-! ### Spec-side definition for the search refinement

The spec describes the text conditions of `search` as "case-insensitive
substring match".  The following definitions formalise exactly those
words, to be compared with the `$regex` condition the code builds. -/

/-- Is the needle equal, ignoring letter case, to a prefix of the hay? -/
def prefixEqCI : List Char → List Char → Bool
  | [], _ => true
  | _ :: _, [] => false
  | p :: ps, c :: cs => (p.toLower = c.toLower) && prefixEqCI ps cs

/-- Is the needle equal, ignoring letter case, to a contiguous run of the
hay at some position? -/
def infixCI (n : List Char) : List Char → Bool
  | [] => prefixEqCI n []
  | c :: cs => prefixEqCI n (c :: cs) || infixCI n cs

/-- Spec-side condition: `hay` contains `needle` as a substring, ignoring
letter case. -/
def specContainsCI (needle hay : String) : Bool :=
  infixCI needle.data hay.data

/-- The spec-side reading of an optional text condition: absent conditions
hold vacuously, present ones are case-insensitive substring containment. -/
def optSpecCond : Option String → String → Bool
  | none, _ => true
  | some t, s => specContainsCI t s

/-! ### Operation sequences and the data-model invariant -/

/-- A mutating request of the kinds the invariant claim quantifies over:
one add or one single-field edit, with its raw form data. -/
inductive Op where
  | addOp (f : AddForm) (now : DateTime)
  | editPriceOp (id : Nat) (v : Option String)
  | editQuantityOp (id : Nat) (v : Option String)
  | editTitleOp (id : Nat) (v : Option String)
  | editAuthorOp (id : Nat) (v : Option String)
  | editGenreOp (id : Nat) (v : Option String)

/-- The store after one operation (whatever response the handler gave). -/
def applyOp (st : Store) : Op → Store
  | .addOp f now => (add st f now).2
  | .editPriceOp id v => (edit_price st id v).2
  | .editQuantityOp id v => (edit_quantity st id v).2
  | .editTitleOp id v => (edit_title st id v).2
  | .editAuthorOp id v => (edit_author st id v).2
  | .editGenreOp id v => (edit_genre st id v).2

/-- The store after a sequence of operations. -/
def applyOps (st : Store) (ops : List Op) : Store :=
  ops.foldl applyOp st

/-- The data-model invariant on one book: positive price and quantity,
non-empty text fields. -/
def bookOk (b : Book) : Prop :=
  b.price.pos = true ∧ 0 < b.quantity ∧
  b.title ≠ "" ∧ b.author ≠ "" ∧ b.genre ≠ ""

instance (b : Book) : Decidable (bookOk b) := by
  unfold bookOk; infer_instance

/-- The data-model invariant on the whole store. -/
def storeOk (st : Store) : Prop :=
  ∀ b ∈ st.books, bookOk b

instance (st : Store) : Decidable (storeOk st) := by
  unfold storeOk; infer_instance

/-- The invariant the validation code actually enforces on one book: the
price is never a value that IEEE-compares `<= 0` (so it is a positive
number, +infinity, or NaN — the handlers' `price <= 0` guards cannot
reject NaN), the quantity is positive, and the text fields are
non-empty. -/
def bookOkW (b : Book) : Prop :=
  b.price.le (PyFloat.finite 0) = false ∧ 0 < b.quantity ∧
  b.title ≠ "" ∧ b.author ≠ "" ∧ b.genre ≠ ""

instance (b : Book) : Decidable (bookOkW b) := by
  unfold bookOkW; infer_instance

/-- The enforced (weakened) invariant on the whole store. -/
def storeOkW (st : Store) : Prop :=
  ∀ b ∈ st.books, bookOkW b

instance (st : Store) : Decidable (storeOkW st) := by
  unfold storeOkW; infer_instance

/-! ### Concrete sample data used by witnesses and counterexamples -/

/-- Midnight, 1 January 2024 (what `strptime "2024-01-01"` produces). -/
def dtMidnight : DateTime := ⟨2024, 1, 1, 0, 0, 0, 0⟩

/-- An afternoon timestamp, as `datetime.utcnow()` typically returns. -/
def dtAfternoon : DateTime := ⟨2024, 5, 20, 14, 30, 15, 123456⟩

/-- A sample stored book. -/
def bkDune : Book := ⟨1, "Dune", "Herbert", "SciFi", .finite (mkRat 31 2), 3, dtAfternoon⟩

/-- A sample book whose title is "abc". -/
def bkAbc : Book := ⟨2, "abc", "anon", "test", .finite (mkRat 5 1), 1, dtMidnight⟩

/-- A sample store holding `bkDune` and `bkAbc`. -/
def stSample : Store := ⟨[bkDune, bkAbc], 3⟩

/-- The empty store. -/
def stEmpty : Store := ⟨[], 0⟩

/-- The form of a `POST /add` request with the title field absent. -/
def formNoTitle : AddForm := ⟨none, some "a", some "g", some "1", some "1"⟩

/-- A fully valid `POST /add` form. -/
def formValid : AddForm :=
  ⟨some "Dune", some "Herbert", some "SciFi", some "15.5", some "3"⟩

/-! ### Helper lemmas -/

/-- A truthy optional string is `some s` for a non-empty `s`. -/
theorem truthy_iff {o : Option String} :
    truthy o = true ↔ ∃ s, o = some s ∧ s ≠ "" := by
  cases o with
  | none => simp [truthy]
  | some s => simp [truthy]

/-- The value behind a truthy optional string is non-empty. -/
theorem truthy_getD {o : Option String} (h : truthy o = true) :
    o.getD "" ≠ "" := by
  rcases truthy_iff.mp h with ⟨s, rfl, hs⟩
  simpa using hs

/-- A value that IEEE-compares strictly positive does not compare
`<= 0`. -/
theorem PyFloat.pos_not_le_zero (p : PyFloat) (h : p.pos = true) :
    p.le (PyFloat.finite 0) = false := by
  cases p with
  | finite q =>
      have hq : 0 < q := by simpa [PyFloat.pos] using h
      simpa [PyFloat.le] using not_le.mpr hq
  | inf => rfl
  | ninf => rw [PyFloat.pos] at h; exact Bool.noConfusion h
  | nan => rfl

/-- `guardParam` is the identity on parameters that are absent or known
non-empty. -/
theorem guardParam_eq {o : Option String}
    (h : ∀ t, o = some t → t ≠ "") : guardParam o = o := by
  cases o with
  | none => rfl
  | some t => simp [guardParam, h t rfl]

/-- `updateFirst` preserves the length of the list. -/
theorem updateFirst_length (f : Book → Book) (id : Nat) (l : List Book) :
    (updateFirst f id l).length = l.length := by
  induction l with
  | nil => rfl
  | cons a l ih =>
      rw [updateFirst]
      by_cases h : a.id = id
      · rw [if_pos h]; simp
      · rw [if_neg h]; simp [ih]

/-- Pointwise description of `updateFirst`: each position holds either the
old book or, when the old book's id matches, its image under `f`. -/
theorem updateFirst_getElem? (f : Book → Book) (id : Nat) (l : List Book)
    (i : Nat) :
    (updateFirst f id l)[i]? = l[i]? ∨
    ∃ b, l[i]? = some b ∧ b.id = id ∧ (updateFirst f id l)[i]? = some (f b) := by
  induction l generalizing i with
  | nil => left; rfl
  | cons a l ih =>
      rw [updateFirst]
      by_cases h : a.id = id
      · rw [if_pos h]
        cases i with
        | zero => right; exact ⟨a, by simp, h, by simp⟩
        | succ n => left; simp
      · rw [if_neg h]
        cases i with
        | zero => left; simp
        | succ n => simpa using ih n

/-- A predicate stable under `f` and holding on `l` holds on
`updateFirst f id l`. -/
theorem updateFirst_pred (P : Book → Prop) (f : Book → Book) (id : Nat)
    (l : List Book) (hl : ∀ b ∈ l, P b) (hf : ∀ b, P b → P (f b)) :
    ∀ b ∈ updateFirst f id l, P b := by
  induction l with
  | nil => simp [updateFirst]
  | cons a l ih =>
      intro b hb
      rw [updateFirst] at hb
      by_cases ha : a.id = id
      · rw [if_pos ha] at hb
        rcases List.mem_cons.mp hb with rfl | hb
        · exact hf a (hl a (List.mem_cons_self a l))
        · exact hl b (List.mem_cons_of_mem a hb)
      · rw [if_neg ha] at hb
        rcases List.mem_cons.mp hb with rfl | hb
        · exact hl b (List.mem_cons_self b l)
        · exact ih (fun c hc => hl c (List.mem_cons_of_mem a hc)) b hb

/-- On metacharacter-free patterns, one-position regex matching is
case-insensitive character equality. -/
theorem charMatch_of_not_meta {p c : Char} (h : isRegexMeta p = false) :
    charMatch p c = (p.toLower = c.toLower : Bool) := by
  have hdot : (p = '.' : Bool) = false := by
    by_cases hp : p = '.'
    · subst hp; simp [isRegexMeta] at h
    · simp [hp]
  simp [charMatch, hdot]

/-- On metacharacter-free patterns, regex prefix matching is
case-insensitive prefix equality. -/
theorem patPrefixMatch_eq (pat s : List Char)
    (h : pat.all (fun c => !isRegexMeta c) = true) :
    patPrefixMatch pat s = prefixEqCI pat s := by
  induction pat generalizing s with
  | nil => cases s <;> rfl
  | cons p ps ih =>
      rw [List.all_cons, Bool.and_eq_true] at h
      cases s with
      | nil => rfl
      | cons c cs =>
          rw [patPrefixMatch, prefixEqCI,
            charMatch_of_not_meta (by simpa using h.1), ih cs h.2]

/-- On metacharacter-free patterns, unanchored regex matching is
case-insensitive substring containment. -/
theorem regexMatchI_eq_specContainsCI (pat s : String)
    (h : pat.data.all (fun c => !isRegexMeta c) = true) :
    regexMatchI pat s = specContainsCI pat s := by
  rw [regexMatchI, specContainsCI]
  induction s.data with
  | nil => rw [patSubMatch, infixCI, patPrefixMatch_eq _ _ h]
  | cons c cs ih =>
      rw [patSubMatch, infixCI, patPrefixMatch_eq _ _ h, ih]

/-- Every book in an `ok` result of `runQuery` whose query carries a
`date_added` condition has exactly that timestamp. -/
theorem runQuery_date (st : Store) (q : Query) (d : DateTime) (l : List Book)
    (hq : q.date_added = some d) (h : runQuery st q = SearchResult.ok l) :
    ∀ b ∈ l, b.date_added = d := by
  rw [runQuery] at h
  by_cases he : q.isEmpty
  · rw [if_pos he] at h
    cases h
    intro b hb
    simp at hb
  · rw [if_neg he] at h
    cases h
    intro b hb
    have hm := (List.mem_filter.mp hb).2
    rw [Query.matches, hq] at hm
    simp only [Bool.and_eq_true] at hm
    have := hm.1.2
    simpa [optDateCond] using this

/-- Every book in an `ok` result of `runQuery` whose query carries a
price condition has price at most the bound in MongoDB's comparison. -/
theorem runQuery_price_le (st : Store) (q : Query) (v : PyFloat) (l : List Book)
    (hq : q.price = some v) (h : runQuery st q = SearchResult.ok l) :
    ∀ b ∈ l, mongoLe b.price v = true := by
  rw [runQuery] at h
  by_cases he : q.isEmpty
  · rw [if_pos he] at h
    cases h
    intro b hb
    simp at hb
  · rw [if_neg he] at h
    cases h
    intro b hb
    have hm := (List.mem_filter.mp hb).2
    rw [Query.matches, hq] at hm
    simp only [Bool.and_eq_true] at hm
    have := hm.2
    simpa [optPriceCond] using this

/-! ### Claim C1 -/

/-- Claim C1 (code bug): the claim says `GET /show_inventory` succeeds on
every store state and returns each book's title and quantity.  The code
cannot do so: the handler body assigns the name `list`
(`list = list(books)`), which makes `list` a local variable for the whole
function body, so the call `list(books)` raises `UnboundLocalError` on
every request and the handler always ends in a server fault instead of
rendering. -/
theorem show_inventory_always_faults (st : Store) :
    show_inventory st =
      Except.error "UnboundLocalError: local variable 'list' referenced before assignment" :=
  rfl

/-! ### Claim C9 -/

/-- Claim C9: a search request that supplies none of the parameters
`title`, `author`, `genre`, `date_added`, `price` returns the empty
result set on every store, including non-empty ones (the handler runs
`db.books.find(query) if query else []` with an empty `query`). -/
theorem search_no_params_empty (st : Store) :
    search st ⟨none, none, none, none, none⟩ = SearchResult.ok [] :=
  rfl

/-! ### Claim C3 -/

/-- Claim C3, counterexample: an `edit_price` request whose form carries
no `price` field does not fail with a client error as the claim states;
`float(None)` raises `TypeError`, which the handler's `except ValueError`
does not catch, so the request ends in an uncaught server fault. -/
theorem edit_price_missing_field_faults :
    edit_price stSample 1 none =
      (HandlerResult.serverFault
        "TypeError: float() argument must be a string or a real number, not NoneType",
       stSample) ∧
    (edit_price stSample 1 none).1 ≠
      HandlerResult.clientError "Price must be numbers." ∧
    (edit_price stSample 1 none).1 ≠
      HandlerResult.clientError "Price must be a positive value." := by
  refine ⟨rfl, ?_, ?_⟩ <;> decide

/-- Claim C3, amended: for an `edit_price` request whose `price` field is
present, an unparsable or non-positive value yields a 400 client error
with the store unchanged, and a parsable positive value updates the
matching record's price and redirects to the detail view; a missing
`price` field instead ends in an uncaught `TypeError` server fault, with
the store unchanged. -/
theorem edit_price_spec (st : Store) (id : Nat) (s : String) :
    (pyFloat s = none →
      edit_price st id (some s) =
        (HandlerResult.clientError "Price must be numbers.", st)) ∧
    (∀ p, pyFloat s = some p → PyFloat.le p (PyFloat.finite 0) = true →
      edit_price st id (some s) =
        (HandlerResult.clientError "Price must be a positive value.", st)) ∧
    (∀ p, pyFloat s = some p → PyFloat.le p (PyFloat.finite 0) = false →
      edit_price st id (some s) =
        (HandlerResult.redirect ("/book_detail/" ++ toString id),
         ⟨updateFirst (fun b => { b with price := p }) id st.books, st.nextId⟩)) ∧
    edit_price st id none =
      (HandlerResult.serverFault
        "TypeError: float() argument must be a string or a real number, not NoneType",
       st) := by
  refine ⟨?_, ?_, ?_, rfl⟩
  · intro h
    rw [edit_price, h]
  · intro p hp hple
    rw [edit_price, hp]
    simp [if_pos hple]
  · intro p hp hpos
    rw [edit_price, hp]
    dsimp only
    rw [if_neg (fun hcontra => Bool.false_ne_true (hpos ▸ hcontra))]

/-- Witness for the amended claim C3 at a concrete request. -/
theorem edit_price_spec_w :
    edit_price stSample 1 (some "abc") =
      (HandlerResult.clientError "Price must be numbers.", stSample) :=
  (edit_price_spec stSample 1 "abc").1 (by decide)

/-! ### Claim C4 -/

/-- Claim C4: an add request with a missing or empty required field, a
non-numeric price or quantity, or a non-positive parsed price or
quantity, is rejected with a client error and leaves the store
unchanged. -/
theorem add_invalid_rejected (st : Store) (f : AddForm) (now : DateTime)
    (h : truthy f.title = false ∨ truthy f.author = false ∨
         truthy f.genre = false ∨ truthy f.price = false ∨
         truthy f.quantity = false ∨
         pyFloat (f.price.getD "") = none ∨ pyInt (f.quantity.getD "") = none ∨
         (∃ p, pyFloat (f.price.getD "") = some p ∧
            PyFloat.le p (PyFloat.finite 0) = true) ∨
         (∃ q, pyInt (f.quantity.getD "") = some q ∧ q ≤ 0)) :
    (add st f now).2 = st ∧
    ∃ m, (add st f now).1 = HandlerResult.clientError m := by
  rw [add]
  by_cases hg : (!truthy f.title || !truthy f.author || !truthy f.genre ||
      !truthy f.price || !truthy f.quantity) = true
  · rw [if_pos hg]
    exact ⟨rfl, _, rfl⟩
  · rw [if_neg hg]
    simp only [Bool.or_eq_true, Bool.not_eq_true'] at hg
    push_neg at hg
    simp only [Bool.ne_false_iff] at hg
    obtain ⟨⟨⟨⟨h1, h2⟩, h3⟩, h4⟩, h5⟩ := hg
    rcases hfp : pyFloat (f.price.getD "") with _ | p <;>
      rcases hqp : pyInt (f.quantity.getD "") with _ | q
    · exact ⟨rfl, _, rfl⟩
    · exact ⟨rfl, _, rfl⟩
    · exact ⟨rfl, _, rfl⟩
    · by_cases hle : PyFloat.le p (PyFloat.finite 0) = true ∨ q ≤ 0
      · simp only [hle, ite_true]
        exact ⟨trivial, _, rfl⟩
      · exfalso
        rcases h with h | h | h | h | h | h | h | ⟨p', hp', hple⟩ | ⟨q', hq', hqle⟩
        · rw [h] at h1; exact Bool.noConfusion h1
        · rw [h] at h2; exact Bool.noConfusion h2
        · rw [h] at h3; exact Bool.noConfusion h3
        · rw [h] at h4; exact Bool.noConfusion h4
        · rw [h] at h5; exact Bool.noConfusion h5
        · rw [hfp] at h; exact Option.noConfusion h
        · rw [hqp] at h; exact Option.noConfusion h
        · rw [hfp] at hp'
          exact hle (Or.inl (Option.some_inj.mp hp' ▸ hple))
        · rw [hqp] at hq'
          exact hle (Or.inr (Option.some_inj.mp hq' ▸ hqle))

/-- Witness for claim C4 at a concrete request with a missing title. -/
theorem add_invalid_rejected_w :
    (add stEmpty formNoTitle dtAfternoon).2 = stEmpty :=
  (add_invalid_rejected stEmpty formNoTitle dtAfternoon (Or.inl (by decide))).1

/-! ### Claim C5 -/

/-- Claim C5: a valid add request (non-empty text fields, price parsing
to a positive value, quantity parsing to a positive integer) inserts a
new record, redirects to the catalog listing (`/home`), and a subsequent
detail lookup of the new record returns exactly the submitted title,
author and genre, the parsed price and quantity, and `date_added` equal
to the UTC time of the add call.  (`hfresh` models MongoDB assigning a
fresh `_id` on insert.) -/
theorem add_valid_retrievable (st : Store) (f : AddForm) (now : DateTime)
    (t au g ps qs : String) (p : PyFloat) (q : Int)
    (ht : f.title = some t) (ht0 : t ≠ "")
    (ha : f.author = some au) (ha0 : au ≠ "")
    (hg : f.genre = some g) (hg0 : g ≠ "")
    (hps : f.price = some ps) (hp : pyFloat ps = some p)
    (hp0 : p.pos = true)
    (hqs : f.quantity = some qs) (hq : pyInt qs = some q) (hq0 : 0 < q)
    (hfresh : ∀ b ∈ st.books, b.id ≠ st.nextId) :
    (add st f now).1 = HandlerResult.redirect "/home" ∧
    book_detail (add st f now).2 st.nextId =
      some ⟨st.nextId, t, au, g, p, q, now⟩ := by
  have hps0 : ps ≠ "" := by
    rintro rfl
    rw [show pyFloat "" = none from rfl] at hp
    exact Option.noConfusion hp
  have hqs0 : qs ≠ "" := by
    rintro rfl
    rw [show pyInt "" = none from rfl] at hq
    exact Option.noConfusion hq
  have hnle : ¬(PyFloat.le p (PyFloat.finite 0) = true ∨ q ≤ 0) :=
    not_or.mpr ⟨by rw [PyFloat.pos_not_le_zero p hp0]; exact Bool.false_ne_true,
      not_le.mpr hq0⟩
  have htr : (!truthy f.title || !truthy f.author || !truthy f.genre ||
      !truthy f.price || !truthy f.quantity) = false := by
    simp [ht, ha, hg, hps, hqs, truthy, ht0, ha0, hg0, hps0, hqs0]
  rw [add, htr, if_neg Bool.false_ne_true, ht, ha, hg, hps, hqs]
  simp only [Option.getD_some]
  rw [hp, hq]
  dsimp only
  rw [if_neg hnle]
  refine ⟨rfl, ?_⟩
  rw [book_detail]
  dsimp only
  rw [List.find?_append]
  have hnone : List.find? (fun b => b.id == st.nextId) st.books = none :=
    List.find?_eq_none.mpr (fun b hb => by simpa using hfresh b hb)
  rw [hnone]
  simp

/-- Witness for claim C5 at a concrete valid add request on the empty
store. -/
theorem add_valid_retrievable_w :
    (add stEmpty formValid dtAfternoon).1 = HandlerResult.redirect "/home" ∧
    book_detail (add stEmpty formValid dtAfternoon).2 stEmpty.nextId =
      some ⟨stEmpty.nextId, "Dune", "Herbert", "SciFi",
        .finite (mkRat 31 2), 3, dtAfternoon⟩ :=
  add_valid_retrievable stEmpty formValid dtAfternoon "Dune" "Herbert" "SciFi"
    "15.5" "3" (PyFloat.finite (mkRat 31 2)) 3
    rfl (by decide) rfl (by decide) rfl (by decide)
    rfl (by decide) (by decide) rfl (by decide) (by decide)
    (fun b hb => by simp [stEmpty] at hb)

/-! ### Claim C2 -/

/-- A store whose books all satisfy the enforced invariant still does
after one `$set` of a field that preserves it. -/
theorem storeOkW_updateField (st : Store) (id : Nat) (f : Book → Book)
    (h : storeOkW st) (hf : ∀ b, bookOkW b → bookOkW (f b)) :
    storeOkW (⟨updateFirst f id st.books, st.nextId⟩ : Store) :=
  fun b hb => updateFirst_pred bookOkW f id st.books h hf b hb

/-- The add handler preserves the enforced invariant: it validates all
five fields before inserting, and its `price <= 0` guard guarantees the
stored price never IEEE-compares `<= 0` (though it lets NaN through). -/
theorem storeOkW_add (st : Store) (f : AddForm) (now : DateTime)
    (h : storeOkW st) : storeOkW (add st f now).2 := by
  rw [add]
  by_cases hg : (!truthy f.title || !truthy f.author || !truthy f.genre ||
      !truthy f.price || !truthy f.quantity) = true
  · rw [if_pos hg]; exact h
  · rw [if_neg hg]
    simp only [Bool.or_eq_true, Bool.not_eq_true'] at hg
    push_neg at hg
    simp only [Bool.ne_false_iff] at hg
    obtain ⟨⟨⟨⟨h1, h2⟩, h3⟩, h4⟩, h5⟩ := hg
    rcases hfp : pyFloat (f.price.getD "") with _ | p <;>
      rcases hqp : pyInt (f.quantity.getD "") with _ | q
    · exact h
    · exact h
    · exact h
    · by_cases hle : PyFloat.le p (PyFloat.finite 0) = true ∨ q ≤ 0
      · dsimp only; rw [if_pos hle]; exact h
      · dsimp only; rw [if_neg hle]
        push_neg at hle
        intro b hb
        rcases List.mem_append.mp hb with hb | hb
        · exact h b hb
        · rw [List.mem_singleton.mp hb]
          exact ⟨by simpa using hle.1, hle.2,
            truthy_getD h1, truthy_getD h2, truthy_getD h3⟩

/-- Each single operation of the claim preserves the enforced
invariant. -/
theorem storeOkW_applyOp (st : Store) (op : Op) (h : storeOkW st) :
    storeOkW (applyOp st op) := by
  cases op with
  | addOp f now => exact storeOkW_add st f now h
  | editPriceOp id v =>
      cases v with
      | none => exact h
      | some s =>
          simp only [applyOp, edit_price]
          rcases hfp : pyFloat s with _ | p
          · exact h
          · dsimp only
            by_cases hle : PyFloat.le p (PyFloat.finite 0) = true
            · rw [if_pos hle]; exact h
            · rw [if_neg hle]
              exact storeOkW_updateField st id _ h
                (fun b hb => ⟨by simpa using hle, hb.2⟩)
  | editQuantityOp id v =>
      cases v with
      | none => exact h
      | some s =>
          simp only [applyOp, edit_quantity]
          rcases hfp : pyInt s with _ | q
          · exact h
          · dsimp only
            by_cases hle : q ≤ 0
            · rw [if_pos hle]; exact h
            · rw [if_neg hle]
              exact storeOkW_updateField st id _ h
                (fun b hb => ⟨hb.1, not_le.mp hle, hb.2.2⟩)
  | editTitleOp id v =>
      rw [applyOp, edit_title]
      cases hv : truthy v with
      | false => exact h
      | true =>
          exact storeOkW_updateField st id _ h
            (fun b hb => ⟨hb.1, hb.2.1, truthy_getD hv, hb.2.2.2.1, hb.2.2.2.2⟩)
  | editAuthorOp id v =>
      rw [applyOp, edit_author]
      cases hv : truthy v with
      | false => exact h
      | true =>
          exact storeOkW_updateField st id _ h
            (fun b hb => ⟨hb.1, hb.2.1, hb.2.2.1, truthy_getD hv, hb.2.2.2.2⟩)
  | editGenreOp id v =>
      rw [applyOp, edit_genre]
      cases hv : truthy v with
      | false => exact h
      | true =>
          exact storeOkW_updateField st id _ h
            (fun b hb => ⟨hb.1, hb.2.1, hb.2.2.1, hb.2.2.2.1, truthy_getD hv⟩)

/-- Claim C2, counterexample: the data-model invariant `price > 0` is
not preserved by the edit operations.  Python's `float("nan")` succeeds,
and every IEEE comparison with NaN is false, so the submitted price
"nan" passes the handler's `price <= 0` check and a NaN price is
stored — for which `price > 0` is false.  Starting from a store
satisfying the invariant, one edit-price operation breaks it. -/
theorem store_invariant_nan_counterexample :
    storeOk stSample ∧
    pyFloat "nan" = some PyFloat.nan ∧
    ¬ storeOk (applyOps stSample [Op.editPriceOp 1 (some "nan")]) :=
  ⟨by decide, by decide, by decide⟩

/-- Claim C2, amended: starting from any store whose books satisfy the
enforced invariant, after any sequence of add and edit operations every
book still has a quantity strictly greater than 0, non-empty title,
author and genre, and a price that never IEEE-compares `<= 0` — that is,
a positive number, +infinity, or NaN.  The spec's stricter `price > 0`
fails only on NaN, which the `price <= 0` guards cannot reject (see the
counterexample). -/
theorem store_weak_invariant_preserved (st : Store) (ops : List Op)
    (h : storeOkW st) : storeOkW (applyOps st ops) := by
  induction ops generalizing st with
  | nil => exact h
  | cons op ops ih => exact ih _ (storeOkW_applyOp st op h)

/-- Witness for the amended claim C2 on a concrete store and operation
sequence. -/
theorem store_weak_invariant_preserved_w :
    storeOkW (applyOps stSample
      [Op.editPriceOp 1 (some "9.99"), Op.addOp formValid dtAfternoon]) :=
  store_weak_invariant_preserved stSample
    [Op.editPriceOp 1 (some "9.99"), Op.addOp formValid dtAfternoon] (by decide)

/-! ### Claim C6 -/

/-- On a present parameter whose text is metacharacter-free, the
condition the code builds agrees with the spec-side substring reading;
absent conditions agree trivially. -/
theorem optRegexCond_eq_optSpecCond (o : Option String) (s : String)
    (h : ∀ t, o = some t → t.data.all (fun c => !isRegexMeta c) = true) :
    optRegexCond o s = optSpecCond o s := by
  cases o with
  | none => rfl
  | some t => exact regexMatchI_eq_specContainsCI t s (h t rfl)

/-- Claim C6, counterexample: the code passes the parameter text to the
store as a regular expression (`$regex`), not as a literal substring.
With title parameter `"a.c"`, the search returns the book titled
`"abc"` even though `"abc"` does not contain `"a.c"` as a substring in
any letter case, so the result set is not "exactly those records whose
field contains the given parameter text". -/
theorem search_title_regex_counterexample :
    search stSample ⟨some "a.c", none, none, none, none⟩ =
      SearchResult.ok [bkAbc] ∧
    specContainsCI "a.c" bkAbc.title = false :=
  ⟨by decide, by decide⟩

/-- Claim C6, amended: for non-empty `title`/`author`/`genre` parameters
containing no regex metacharacters, the result set is exactly the books
whose corresponding fields contain each supplied parameter text as a
case-insensitive substring, all supplied conditions combined by AND
(when at least one parameter is supplied; `date_added` and `price`
absent). -/
theorem search_text_params_substring (st : Store) (ot oa og : Option String)
    (ht : ∀ t, ot = some t → t ≠ "" ∧ t.data.all (fun c => !isRegexMeta c) = true)
    (ha : ∀ t, oa = some t → t ≠ "" ∧ t.data.all (fun c => !isRegexMeta c) = true)
    (hg : ∀ t, og = some t → t ≠ "" ∧ t.data.all (fun c => !isRegexMeta c) = true)
    (hne : truthy ot = true ∨ truthy oa = true ∨ truthy og = true) :
    search st ⟨ot, oa, og, none, none⟩ =
      SearchResult.ok (st.books.filter (fun b =>
        optSpecCond ot b.title && optSpecCond oa b.author &&
        optSpecCond og b.genre)) := by
  rw [search]
  dsimp only
  rw [searchAfterDate]
  dsimp only
  rw [guardParam_eq (fun t h => (ht t h).1),
    guardParam_eq (fun t h => (ha t h).1),
    guardParam_eq (fun t h => (hg t h).1)]
  have hemp : (⟨ot, oa, og, none, none⟩ : Query).isEmpty = false := by
    rcases hne with hne | hne | hne <;>
      rcases truthy_iff.mp hne with ⟨s, rfl, hs⟩ <;>
      simp [Query.isEmpty]
  rw [runQuery, hemp, if_neg Bool.false_ne_true]
  refine congrArg SearchResult.ok (List.filter_congr ?_)
  intro b _
  rw [Query.matches]
  dsimp only
  rw [optRegexCond_eq_optSpecCond ot b.title (fun t h => (ht t h).2),
    optRegexCond_eq_optSpecCond oa b.author (fun t h => (ha t h).2),
    optRegexCond_eq_optSpecCond og b.genre (fun t h => (hg t h).2)]
  simp [optDateCond, optPriceCond]

/-- Witness for the amended claim C6: a case-insensitive title search for
"dune" returns exactly the book titled "Dune". -/
theorem search_text_params_substring_w :
    search stSample ⟨some "dune", none, none, none, none⟩ =
      SearchResult.ok [bkDune] :=
  (search_text_params_substring stSample (some "dune") none none
    (fun t h => by cases h; exact ⟨by decide, by decide⟩)
    (fun t h => by cases h) (fun t h => by cases h)
    (Or.inl (by decide))).trans (by decide)

/-! ### Claim C7 -/

/-- When the price parameter is a non-empty string that parses, every
book in an `ok` result of the continuation has price at most the bound. -/
theorem searchAfterDate_price_le (st : Store) (a : SearchArgs)
    (qT qA qG : Option String) (qD : Option DateTime) (s : String)
    (v : PyFloat) (l : List Book)
    (hs : a.price = some s) (hne : s ≠ "") (hv : pyFloat s = some v)
    (hok : searchAfterDate st a qT qA qG qD = SearchResult.ok l) :
    ∀ b ∈ l, mongoLe b.price v = true := by
  rw [searchAfterDate, hs] at hok
  dsimp only at hok
  rw [if_pos hne, hv] at hok
  exact runQuery_price_le st _ v l rfl hok

/-- When the price parameter is a non-empty string that does not parse,
the continuation reports the invalid-price client error. -/
theorem searchAfterDate_price_err (st : Store) (a : SearchArgs)
    (qT qA qG : Option String) (qD : Option DateTime) (s : String)
    (hs : a.price = some s) (hne : s ≠ "") (hv : pyFloat s = none) :
    searchAfterDate st a qT qA qG qD =
      SearchResult.clientError "Invalid price format. Please enter a valid number." := by
  rw [searchAfterDate, hs]
  dsimp only
  rw [if_pos hne, hv]

/-- Claim C7, counterexample: the claim says an unparsable price
parameter fails with HTTP 400.  The empty string does not parse as a
float (Python `float("")` raises `ValueError`), yet a search whose price
parameter is the empty string is not rejected: the handler's `if price:`
guard skips the falsy empty string, and the request succeeds. -/
theorem search_empty_price_counterexample :
    pyFloat "" = none ∧
    search stSample ⟨none, none, none, none, some ""⟩ = SearchResult.ok [] ∧
    search stSample ⟨none, none, none, none, some ""⟩ ≠
      SearchResult.clientError "Invalid price format. Please enter a valid number." :=
  ⟨by decide, by decide, by decide⟩

/-- Claim C7, amended: for a search request whose price parameter is a
non-empty string: if it parses as a number, every record in the result
has price at most the given bound; if it does not parse (and no invalid
`date_added` parameter preempts the price check), the request fails with
the invalid-price client error. -/
theorem search_price_param_spec (st : Store) (a : SearchArgs) (s : String)
    (hs : a.price = some s) (hne : s ≠ "") :
    (∀ v l, pyFloat s = some v → search st a = SearchResult.ok l →
      ∀ b ∈ l, mongoLe b.price v = true) ∧
    ((∀ ds, a.date_added = some ds → ds = "" ∨ strptimeYMD ds ≠ none) →
      pyFloat s = none →
      search st a = SearchResult.clientError
        "Invalid price format. Please enter a valid number.") := by
  constructor
  · intro v l hv hok
    rcases hda : a.date_added with _ | ds
    · rw [search, hda] at hok
      dsimp only at hok
      exact searchAfterDate_price_le st a _ _ _ _ s v l hs hne hv hok
    · rw [search, hda] at hok
      dsimp only at hok
      by_cases hds : ds = ""
      · rw [if_neg (by simp [hds])] at hok
        exact searchAfterDate_price_le st a _ _ _ _ s v l hs hne hv hok
      · rw [if_pos hds] at hok
        rcases hsp : strptimeYMD ds with _ | d
        · rw [hsp] at hok
          exact absurd hok (by simp)
        · rw [hsp] at hok
          dsimp only at hok
          exact searchAfterDate_price_le st a _ _ _ _ s v l hs hne hv hok
  · intro hdate hv
    rcases hda : a.date_added with _ | ds
    · rw [search, hda]
      dsimp only
      exact searchAfterDate_price_err st a _ _ _ _ s hs hne hv
    · rw [search, hda]
      dsimp only
      by_cases hds : ds = ""
      · rw [if_neg (by simp [hds])]
        exact searchAfterDate_price_err st a _ _ _ _ s hs hne hv
      · rw [if_pos hds]
        rcases hsp : strptimeYMD ds with _ | d
        · rcases hdate ds hda with h | h
          · exact absurd h hds
          · exact absurd hsp h
        · dsimp only
          exact searchAfterDate_price_err st a _ _ _ _ s hs hne hv

/-- Witness for the amended claim C7: searching with price bound 20
admits the stored book priced 15.5. -/
theorem search_price_param_spec_w :
    mongoLe bkDune.price (PyFloat.finite (mkRat 20 1)) = true :=
  (search_price_param_spec stSample ⟨none, none, none, none, some "20"⟩ "20"
    rfl (by decide)).1 (PyFloat.finite (mkRat 20 1)) [bkDune, bkAbc]
    (by decide) (by decide) bkDune (by decide)

/-! ### Claim C8 -/

/-- A position of an updated list holds either the old book unchanged or,
when the old book's id matches, its image under the update. -/
theorem updateFirst_frame (f : Book → Book) (id : Nat) (l : List Book)
    (i : Nat) (b b' : Book) (hb : l[i]? = some b)
    (hb' : (updateFirst f id l)[i]? = some b') :
    b' = b ∨ (b.id = id ∧ b' = f b) := by
  rcases updateFirst_getElem? f id l i with h | ⟨c, hc, hcid, hc'⟩
  · rw [h] at hb'
    exact Or.inl (Option.some_inj.mp (hb.symm.trans hb')).symm
  · right
    obtain rfl := Option.some_inj.mp (hb.symm.trans hc)
    exact ⟨hcid, Option.some_inj.mp (hb'.symm.trans hc')⟩

/-- Claim C8: a successful single-field edit (price, quantity, title,
author or genre) changes at most that one field of the record matching
the given id; the record's other fields, its `id` and `date_added`, and
every record with a different id are unchanged, as is the rest of the
store. -/
theorem edit_field_frame (st : Store) (id : Nat) :
    (∀ v r st', edit_price st id v = (HandlerResult.redirect r, st') →
      st'.nextId = st.nextId ∧ st'.books.length = st.books.length ∧
      ∀ (i : Nat) (b b' : Book), st.books[i]? = some b → st'.books[i]? = some b' →
        b'.id = b.id ∧ b'.date_added = b.date_added ∧
        b' = { b with price := b'.price } ∧ (b.id ≠ id → b' = b)) ∧
    (∀ v r st', edit_quantity st id v = (HandlerResult.redirect r, st') →
      st'.nextId = st.nextId ∧ st'.books.length = st.books.length ∧
      ∀ (i : Nat) (b b' : Book), st.books[i]? = some b → st'.books[i]? = some b' →
        b'.id = b.id ∧ b'.date_added = b.date_added ∧
        b' = { b with quantity := b'.quantity } ∧ (b.id ≠ id → b' = b)) ∧
    (∀ v r st', edit_title st id v = (HandlerResult.redirect r, st') →
      st'.nextId = st.nextId ∧ st'.books.length = st.books.length ∧
      ∀ (i : Nat) (b b' : Book), st.books[i]? = some b → st'.books[i]? = some b' →
        b'.id = b.id ∧ b'.date_added = b.date_added ∧
        b' = { b with title := b'.title } ∧ (b.id ≠ id → b' = b)) ∧
    (∀ v r st', edit_author st id v = (HandlerResult.redirect r, st') →
      st'.nextId = st.nextId ∧ st'.books.length = st.books.length ∧
      ∀ (i : Nat) (b b' : Book), st.books[i]? = some b → st'.books[i]? = some b' →
        b'.id = b.id ∧ b'.date_added = b.date_added ∧
        b' = { b with author := b'.author } ∧ (b.id ≠ id → b' = b)) ∧
    (∀ v r st', edit_genre st id v = (HandlerResult.redirect r, st') →
      st'.nextId = st.nextId ∧ st'.books.length = st.books.length ∧
      ∀ (i : Nat) (b b' : Book), st.books[i]? = some b → st'.books[i]? = some b' →
        b'.id = b.id ∧ b'.date_added = b.date_added ∧
        b' = { b with genre := b'.genre } ∧ (b.id ≠ id → b' = b)) := by
  refine ⟨?_, ?_, ?_, ?_, ?_⟩
  · intro v r st' h
    rcases v with _ | s
    · exact absurd h (by simp [edit_price, Prod.ext_iff])
    · simp only [edit_price] at h
      rcases hp : pyFloat s with _ | p
      · rw [hp] at h
        exact absurd h (by simp [Prod.ext_iff])
      · rw [hp] at h
        dsimp only at h
        by_cases hle : PyFloat.le p (PyFloat.finite 0) = true
        · rw [if_pos hle] at h
          exact absurd h (by simp [Prod.ext_iff])
        · rw [if_neg hle] at h
          rw [Prod.mk.injEq] at h
          obtain ⟨-, h2⟩ := h
          subst h2
          dsimp only
          refine ⟨rfl, updateFirst_length _ _ _, ?_⟩
          intro i b b' hb hb'
          rcases updateFirst_frame _ id st.books i b b' hb hb' with rfl | ⟨hid, rfl⟩
          · exact ⟨rfl, rfl, rfl, fun _ => rfl⟩
          · exact ⟨rfl, rfl, rfl, fun hne => absurd hid hne⟩
  · intro v r st' h
    rcases v with _ | s
    · exact absurd h (by simp [edit_quantity, Prod.ext_iff])
    · simp only [edit_quantity] at h
      rcases hq : pyInt s with _ | q
      · rw [hq] at h
        exact absurd h (by simp [Prod.ext_iff])
      · rw [hq] at h
        dsimp only at h
        by_cases hle : q ≤ 0
        · rw [if_pos hle] at h
          exact absurd h (by simp [Prod.ext_iff])
        · rw [if_neg hle] at h
          rw [Prod.mk.injEq] at h
          obtain ⟨-, h2⟩ := h
          subst h2
          dsimp only
          refine ⟨rfl, updateFirst_length _ _ _, ?_⟩
          intro i b b' hb hb'
          rcases updateFirst_frame _ id st.books i b b' hb hb' with rfl | ⟨hid, rfl⟩
          · exact ⟨rfl, rfl, rfl, fun _ => rfl⟩
          · exact ⟨rfl, rfl, rfl, fun hne => absurd hid hne⟩
  · intro v r st' h
    rw [edit_title] at h
    cases htv : truthy v with
    | false =>
        rw [htv] at h
        exact absurd h (by simp [Prod.ext_iff])
    | true =>
        rw [htv] at h
        simp only [Bool.not_true] at h
        rw [if_neg Bool.false_ne_true] at h
        rw [Prod.mk.injEq] at h
        obtain ⟨-, h2⟩ := h
        subst h2
        dsimp only
        refine ⟨rfl, updateFirst_length _ _ _, ?_⟩
        intro i b b' hb hb'
        rcases updateFirst_frame _ id st.books i b b' hb hb' with rfl | ⟨hid, rfl⟩
        · exact ⟨rfl, rfl, rfl, fun _ => rfl⟩
        · exact ⟨rfl, rfl, rfl, fun hne => absurd hid hne⟩
  · intro v r st' h
    rw [edit_author] at h
    cases htv : truthy v with
    | false =>
        rw [htv] at h
        exact absurd h (by simp [Prod.ext_iff])
    | true =>
        rw [htv] at h
        simp only [Bool.not_true] at h
        rw [if_neg Bool.false_ne_true] at h
        rw [Prod.mk.injEq] at h
        obtain ⟨-, h2⟩ := h
        subst h2
        dsimp only
        refine ⟨rfl, updateFirst_length _ _ _, ?_⟩
        intro i b b' hb hb'
        rcases updateFirst_frame _ id st.books i b b' hb hb' with rfl | ⟨hid, rfl⟩
        · exact ⟨rfl, rfl, rfl, fun _ => rfl⟩
        · exact ⟨rfl, rfl, rfl, fun hne => absurd hid hne⟩
  · intro v r st' h
    rw [edit_genre] at h
    cases htv : truthy v with
    | false =>
        rw [htv] at h
        exact absurd h (by simp [Prod.ext_iff])
    | true =>
        rw [htv] at h
        simp only [Bool.not_true] at h
        rw [if_neg Bool.false_ne_true] at h
        rw [Prod.mk.injEq] at h
        obtain ⟨-, h2⟩ := h
        subst h2
        dsimp only
        refine ⟨rfl, updateFirst_length _ _ _, ?_⟩
        intro i b b' hb hb'
        rcases updateFirst_frame _ id st.books i b b' hb hb' with rfl | ⟨hid, rfl⟩
        · exact ⟨rfl, rfl, rfl, fun _ => rfl⟩
        · exact ⟨rfl, rfl, rfl, fun hne => absurd hid hne⟩

/-- Witness for claim C8: a successful price edit on the sample store
leaves the id counter unchanged. -/
theorem edit_field_frame_w :
    ((edit_price stSample 1 (some "9.99")).2).nextId = stSample.nextId :=
  ((edit_field_frame stSample 1).1 (some "9.99") ("/book_detail/" ++ toString 1)
    (edit_price stSample 1 (some "9.99")).2 (by decide)).1

/-! ### Claim C10 -/

/-- Every datetime produced by `strptime "%Y-%m-%d"` has all time-of-day
fields zero. -/
theorem strptimeYMD_midnight (s : String) (d : DateTime)
    (h : strptimeYMD s = some d) :
    d.hour = 0 ∧ d.minute = 0 ∧ d.second = 0 ∧ d.microsecond = 0 := by
  rw [strptimeYMD] at h
  split at h
  · dsimp only at h
    split at h
    · split at h
      · obtain rfl := Option.some_inj.mp h
        exact ⟨rfl, rfl, rfl, rfl⟩
      · exact Option.noConfusion h
    · exact Option.noConfusion h
  · exact Option.noConfusion h

/-- When the `date_added` condition is in the query, every book in an
`ok` result of the continuation has exactly that timestamp. -/
theorem searchAfterDate_date (st : Store) (a : SearchArgs)
    (qT qA qG : Option String) (d : DateTime) (l : List Book)
    (hok : searchAfterDate st a qT qA qG (some d) = SearchResult.ok l) :
    ∀ b ∈ l, b.date_added = d := by
  rw [searchAfterDate] at hok
  rcases hpr : a.price with _ | ps
  · rw [hpr] at hok
    dsimp only at hok
    exact runQuery_date st _ d l rfl hok
  · rw [hpr] at hok
    dsimp only at hok
    by_cases hps : ps = ""
    · rw [if_neg (by simp [hps])] at hok
      exact runQuery_date st _ d l rfl hok
    · rw [if_pos hps] at hok
      rcases hv : pyFloat ps with _ | v
      · rw [hv] at hok
        exact absurd hok (by simp)
      · rw [hv] at hok
        dsimp only at hok
        exact runQuery_date st _ d l rfl hok

/-- Claim C10 (implicit): when the `date_added` parameter parses in
YYYY-MM-DD form, the condition built is midnight (00:00:00.000000) of
that date, and every record in a successful result has its stored
`date_added` exactly equal to that midnight timestamp.  Since `add`
stamps `date_added` with the full `utcnow()` timestamp, a record created
at any time other than exactly midnight UTC matches no `date_added`
search. -/
theorem search_date_param_midnight (st : Store) (a : SearchArgs)
    (ds : String) (d : DateTime) (l : List Book)
    (hds : a.date_added = some ds) (hp : strptimeYMD ds = some d)
    (hok : search st a = SearchResult.ok l) :
    d.hour = 0 ∧ d.minute = 0 ∧ d.second = 0 ∧ d.microsecond = 0 ∧
    ∀ b ∈ l, b.date_added = d ∧ b.date_added.hour = 0 ∧
      b.date_added.minute = 0 ∧ b.date_added.second = 0 ∧
      b.date_added.microsecond = 0 := by
  obtain ⟨h1, h2, h3, h4⟩ := strptimeYMD_midnight ds d hp
  have hne : ds ≠ "" := by
    rintro rfl
    rw [show strptimeYMD "" = none from rfl] at hp
    exact Option.noConfusion hp
  rw [search, hds] at hok
  dsimp only at hok
  rw [if_pos hne, hp] at hok
  dsimp only at hok
  have hall := searchAfterDate_date st a _ _ _ d l hok
  exact ⟨h1, h2, h3, h4, fun b hb => by
    have hbd := hall b hb
    exact ⟨hbd, hbd ▸ h1, hbd ▸ h2, hbd ▸ h3, hbd ▸ h4⟩⟩

/-- Witness for claim C10: searching `date_added=2024-01-01` over the
sample store returns exactly the book stored at midnight of that day. -/
theorem search_date_param_midnight_w :
    dtMidnight.hour = 0 ∧ bkAbc.date_added = dtMidnight := by
  have h := search_date_param_midnight stSample
    ⟨none, none, none, some "2024-01-01", none⟩ "2024-01-01" dtMidnight
    [bkAbc] rfl (by decide) (by decide)
  exact ⟨h.1, (h.2.2.2.2 bkAbc (by decide)).1⟩

end Bookstore
